import Mathlib

/-!
Shallow embedding of src/app.py, the web resume categorizer: the static
keyword table, the domain scorer (`categorize_domain`), the experience
scorer (`categorize_experience` with its six regular-expression patterns),
extension validation (`allowed_file`), the upload-batch pipeline
(`processBatch`, modelling the per-file loop of `upload_files`), the
archive layout (`create_zip_file`) and the post-batch control flow
(`finishUpload`, `download_zip`).

Text is modelled as `String` and `List Char`.  The Python behaviours the
source relies on are embedded for the ASCII inputs the application
handles: `str.lower`, `str.count` (non-overlapping substring count),
`str.strip` emptiness, `pathlib.Path(...).suffix`, insertion-ordered
dict iteration, `max(..., key=...)` keeping the first strict maximum,
and `re.findall` for the six concrete experience patterns (each embedded
as a backtracking-faithful matcher; the constructs of those patterns are
deterministic except for the ordered alternatives, which are tried in
Python's order).
-/

namespace ResumeApp

/-- ASCII lower-casing of one character (Python str.lower on ASCII text). -/
def lowerChar (c : Char) : Char :=
  if 'A' ≤ c ∧ c ≤ 'Z' then Char.ofNat (c.toNat + 32) else c

/-- Python s.lower() on ASCII text. -/
def lowerStr (l : List Char) : List Char := l.map lowerChar

/-- Python whitespace class (the ASCII members matched by str.strip and \s). -/
def pyIsSpace (c : Char) : Bool :=
  c = ' ' || c = '\t' || c = '\n' || c = '\x0b' || c = '\x0c' || c = '\r'

/-- Python str.count auxiliary: counts non-overlapping occurrences of a
nonempty needle, scanning left to right; fuel bounds the recursion and is
always started at the haystack length, which suffices because every step
consumes at least one character of the haystack. -/
def pyCountAux (needle : List Char) : Nat → List Char → Nat
  | 0, _ => 0
  | _ + 1, [] => 0
  | fuel + 1, c :: cs =>
    if needle.isPrefixOf (c :: cs) then
      1 + pyCountAux needle fuel ((c :: cs).drop needle.length)
    else
      pyCountAux needle fuel cs

/-- Python text.count(needle): non-overlapping substring occurrence count. -/
def pyCount (needle hay : List Char) : Nat :=
  if needle.isEmpty then hay.length + 1 else pyCountAux needle hay.length hay

/-- The static per-domain keyword table of ResumeCategorizer.__init__,
in its declaration order (src/app.py lines 48-87). -/
def domain_keywords : List (String × List String) :=
  [ ("Software_Engineering",
     ["python", "java", "javascript", "react", "angular", "vue", "node.js", "django",
      "flask", "spring boot", "full stack", "frontend", "backend", "web developer",
      "software engineer", "developer", "programming", "coding", "software development",
      "html", "css", "sql", "database", "api", "rest", "microservices", "agile",
      "git", "github", "mvc", "orm", "json", "xml", "mobile app", "ios", "android"]),
    ("Data_Science",
     ["data scientist", "machine learning", "deep learning", "tensorflow", "pytorch",
      "pandas", "numpy", "matplotlib", "sql", "tableau", "power bi", "statistics",
      "data analyst", "analytics", "big data", "hadoop", "spark", "r programming",
      "data mining", "predictive modeling", "data visualization", "scikit-learn",
      "neural network", "artificial intelligence", "nlp", "computer vision"]),
    ("VLSI_Electronics",
     ["vlsi", "verilog", "vhdl", "fpga", "asic", "system verilog", "cadence", "synopsys",
      "xilinx", "altera", "rtl design", "verification", "physical design", "analog design",
      "digital design", "semiconductor", "chip design", "circuit design", "embedded",
      "microcontroller", "arm", "risc", "dft", "timing analysis", "layout"]),
    ("DevOps_Cloud",
     ["devops", "aws", "azure", "gcp", "docker", "kubernetes", "jenkins", "terraform",
      "ansible", "linux", "ci/cd", "cloud engineer", "infrastructure", "deployment",
      "monitoring", "automation", "scripting", "cloud computing", "containerization",
      "puppet", "chef", "nagios", "prometheus", "grafana", "elk stack"]),
    ("Mechanical_Engineering",
     ["mechanical engineer", "cad", "solidworks", "autocad", "catia", "ansys",
      "manufacturing", "design engineer", "product design", "mechanical design",
      "thermal analysis", "fea", "prototype", "quality control", "lean manufacturing",
      "pro/engineer", "inventor", "nx", "creo", "matlab", "simulink"]),
    ("Civil_Engineering",
     ["civil engineer", "construction", "structural design", "project management",
      "autocad", "revit", "surveying", "site engineer", "concrete", "steel design",
      "infrastructure", "transportation", "water resources", "geotechnical",
      "etabs", "sap2000", "staad pro", "primavera", "ms project"]) ]

/-- One domain's score: the sum over its keyword list of case-insensitive
substring occurrence counts in the (already lowered) text
(src/app.py lines 156-159). -/
def domainScore (kws : List String) (textLower : List Char) : Nat :=
  kws.foldl (fun a k => a + pyCount (lowerStr k.toList) textLower) 0

/-- All (domain, score) pairs in the table's declaration order; this is the
iteration the source performs over self.domain_keywords.items(). -/
def domainScores (t : String) : List (String × Nat) :=
  domain_keywords.map (fun p => (p.1, domainScore p.2 (lowerStr t.toList)))

/-- Python max(iterable, key=...): fold that keeps the current best and
replaces it only on a strictly greater key, i.e. the first maximum in
iteration order wins. -/
def pyMaxBy (p : String × Nat) (l : List (String × Nat)) : String × Nat :=
  l.foldl (fun best q => if best.2 < q.2 then q else best) p

/-- categorize_domain (src/app.py lines 151-167): keep the domains with a
positive score (dict insertion order = declaration order) and return the
first one attaining the maximum score, or the sentinel when none scored. -/
def categorize_domain (t : String) : String :=
  match (domainScores t).filter (fun p => 0 < p.2) with
  | [] => "Other"
  | p :: rest => (pyMaxBy p rest).1

/-! ### The experience patterns

Each of the six regular expressions of self.experience_patterns
(src/app.py lines 89-96) is embedded as a matcher trying to match at the
head of the character list, returning the captured integer group and the
remainder after the match.  Greedy quantifiers whose continuation can
never consume the quantified characters are compiled to maximal munch;
the two genuinely nondeterministic constructs, the optional group
(?:of\s*)? and the alternation (?:experience|exp), are compiled to
ordered alternatives in Python's trial order. -/

/-- Match a literal string at the head of the list. -/
def matchLit : List Char → List Char → Option (List Char)
  | [], l => some l
  | _ :: _, [] => none
  | p :: ps, c :: cs => if p = c then matchLit ps cs else none

/-- Greedily match one optional character (regex c?). -/
def optChar (c : Char) : List Char → List Char
  | [] => []
  | x :: xs => if x = c then xs else x :: xs

/-- Greedily skip whitespace (regex \s*). -/
def skipSpaces (l : List Char) : List Char := l.dropWhile pyIsSpace

/-- Character is an ASCII digit. -/
def isDigitChar (c : Char) : Bool := '0' ≤ c && c ≤ '9'

/-- Consume a maximal digit run, accumulating its decimal value; this is
the greedy (\d+) group followed by Python's int() on the captured text. -/
def grabDigits : List Char → Nat → Nat × List Char
  | [], acc => (acc, [])
  | c :: cs, acc =>
    if isDigitChar c then grabDigits cs (acc * 10 + (c.toNat - '0'.toNat))
    else (acc, c :: cs)

/-- Match the group (\d+) at the head: at least one digit required. -/
def matchDigits : List Char → Option (Nat × List Char)
  | [] => none
  | c :: cs => if isDigitChar c then some (grabDigits (c :: cs) 0) else none

/-- The alternation (?:experience|exp), tried in Python's order. -/
def matchExpWord (l : List Char) : Option (List Char) :=
  matchLit "experience".toList l <|> matchLit "exp".toList l

/-- Pattern 1: (\d+)\+?\s*years?\s*(?:of\s*)?(?:experience|exp) -/
def matchP1 (l : List Char) : Option (Nat × List Char) := do
  let (n, r) ← matchDigits l
  let r := skipSpaces (optChar '+' r)
  let r ← matchLit "year".toList r
  let r := skipSpaces (optChar 's' r)
  let r ← (do
    let ra ← matchLit "of".toList r
    matchExpWord (skipSpaces ra)) <|> matchExpWord r
  pure (n, r)

/-- Pattern 2: (\d+)\+?\s*yrs? -/
def matchP2 (l : List Char) : Option (Nat × List Char) := do
  let (n, r) ← matchDigits l
  let r := skipSpaces (optChar '+' r)
  let r ← matchLit "yr".toList r
  pure (n, optChar 's' r)

/-- Pattern 3: (\d+)\+?\s*year\s*exp -/
def matchP3 (l : List Char) : Option (Nat × List Char) := do
  let (n, r) ← matchDigits l
  let r := skipSpaces (optChar '+' r)
  let r ← matchLit "year".toList r
  let r ← matchLit "exp".toList (skipSpaces r)
  pure (n, r)

/-- Pattern 4: experience\s*:?\s*(\d+)\+?\s*years? -/
def matchP4 (l : List Char) : Option (Nat × List Char) := do
  let r ← matchLit "experience".toList l
  let r := skipSpaces (optChar ':' (skipSpaces r))
  let (n, r) ← matchDigits r
  let r := skipSpaces (optChar '+' r)
  let r ← matchLit "year".toList r
  pure (n, optChar 's' r)

/-- Pattern 5: (\d+)\+?\s*years?\s*in -/
def matchP5 (l : List Char) : Option (Nat × List Char) := do
  let (n, r) ← matchDigits l
  let r := skipSpaces (optChar '+' r)
  let r ← matchLit "year".toList r
  let r ← matchLit "in".toList (skipSpaces (optChar 's' r))
  pure (n, r)

/-- Pattern 6: (\d+)\+?\s*years?\s*working -/
def matchP6 (l : List Char) : Option (Nat × List Char) := do
  let (n, r) ← matchDigits l
  let r := skipSpaces (optChar '+' r)
  let r ← matchLit "year".toList r
  let r ← matchLit "working".toList (skipSpaces (optChar 's' r))
  pure (n, r)

/-- self.experience_patterns (src/app.py lines 89-96), in order. -/
def experience_patterns : List (List Char → Option (Nat × List Char)) :=
  [matchP1, matchP2, matchP3, matchP4, matchP5, matchP6]

/-- re.findall driver: scan left to right, collecting non-overlapping
matches and resuming after each match.  Fuel bounds the recursion and is
started at the list length, which suffices because a successful match
always consumes at least one character. -/
def pyFindAllAux (m : List Char → Option (Nat × List Char)) :
    Nat → List Char → List Nat
  | 0, _ => []
  | _ + 1, [] => []
  | fuel + 1, c :: cs =>
    match m (c :: cs) with
    | some (n, rest) => n :: pyFindAllAux m fuel rest
    | none => pyFindAllAux m fuel cs

/-- re.findall(pattern, text) for a single-group pattern: the list of
captured integers of all non-overlapping matches. -/
def pyFindAll (m : List Char → Option (Nat × List Char)) (l : List Char) :
    List Nat :=
  pyFindAllAux m l.length l

/-- The loop of categorize_experience (src/app.py lines 172-182): run every
pattern on the lowered text and keep the maximum matched value that lies in
the valid range (0 <= years <= 50; the lower bound is automatic for the
natural number captured by the digits group). -/
def maxValidYears (t : String) : Nat :=
  experience_patterns.foldl
    (fun mx m =>
      (pyFindAll m (lowerStr t.toList)).foldl
        (fun a n => if n ≤ 50 then max a n else a) mx)
    0

/-- categorize_experience (src/app.py lines 169-191). -/
def categorize_experience (t : String) : String :=
  if maxValidYears t = 0 then "Fresher_0-1_years"
  else if maxValidYears t ≤ 3 then "Junior_1-3_years"
  else if maxValidYears t ≤ 6 then "Mid_Level_3-6_years"
  else "Senior_6plus_years"

/-- Every integer any pattern matches in the text, before the valid-range
filter; used to state that out-of-range matches are discarded. -/
def allMatches (t : String) : List Nat :=
  experience_patterns.foldl
    (fun acc m => acc ++ pyFindAll m (lowerStr t.toList)) []

/-! ### Extension validation and the upload-batch pipeline -/

/-- The upload allow-list ALLOWED_EXTENSIONS (src/app.py line 40). -/
def ALLOWED_EXTENSIONS : List (List Char) :=
  [".pdf".toList, ".docx".toList, ".doc".toList, ".txt".toList]

/-- The final path component (characters after the last slash). -/
def afterLastSlash (l : List Char) : List Char :=
  ((l.reverse.takeWhile (fun c => c ≠ '/'))).reverse

/-- CPython pathlib suffix of a name: with i the index of the last dot,
the substring from i when 0 < i < len - 1, else the empty string. -/
def pySuffix (name : List Char) : List Char :=
  let afterDot := name.reverse.takeWhile (fun c => c ≠ '.')
  if afterDot.length = name.length then []
  else
    let i := name.length - afterDot.length - 1
    if 0 < i ∧ i < name.length - 1 then name.drop i else []

/-- Path(filename).suffix. -/
def pathSuffix (filename : String) : List Char :=
  pySuffix (afterLastSlash filename.toList)

/-- allowed_file (src/app.py lines 196-198). -/
def allowed_file (filename : String) : Bool :=
  ALLOWED_EXTENSIONS.contains (lowerStr (pathSuffix filename))

def UPLOAD_FOLDER : String := "/tmp/uploads"

def PROCESSED_FOLDER : String := "/tmp/processed"

/-- One uploaded file as the pipeline sees it.  `extracted` is the text the
external extraction collaborator returns for the saved file (the empty
string when extraction fails, matching the except branches of the
extract_text_from_* helpers); `raises` models an exception escaping the
try block of the per-file loop (e.g. the filesystem save failing). -/
structure UpFile where
  filename : String
  extracted : String
  raises : Bool
deriving DecidableEq

/-- One entry of categorized_files (src/app.py lines 259-265). -/
structure Rec where
  original_name : String
  file_path : String
  domain : String
  experience : String
  text_preview : String
deriving DecidableEq

/-- The filename fallback (src/app.py lines 253-254): when the extracted
text is empty after str.strip, i.e. all whitespace, score the filename. -/
def effectiveText (filename extracted : String) : String :=
  if extracted.toList.all pyIsSpace then filename else extracted

/-- The body of the per-file try block (src/app.py lines 246-265).
secure_filename is an external werkzeug collaborator; it is modelled as
the identity on the original client filename. -/
def processOne (session_id : String) (f : UpFile) : Rec :=
  let filename := f.filename
  let text_content := effectiveText filename f.extracted
  { original_name := filename
    file_path := UPLOAD_FOLDER ++ "/" ++ session_id ++ "_" ++ filename
    domain := categorize_domain text_content
    experience := categorize_experience text_content
    text_preview :=
      if 200 < text_content.length then text_content.take 200 ++ "..."
      else text_content }

/-- The per-file loop of upload_files (src/app.py lines 243-274): each file
either passes validation and yields a record (counted processed), fails
with an exception (counted failed), or fails validation (counted failed).
Returns (categorized_files, processed_count, failed_count). -/
def processBatch (session_id : String) : List UpFile → List Rec × Nat × Nat
  | [] => ([], 0, 0)
  | f :: fs =>
    let r := processBatch session_id fs
    if f.filename ≠ "" ∧ allowed_file f.filename then
      if f.raises then (r.1, r.2.1, r.2.2 + 1)
      else (processOne session_id f :: r.1, r.2.1 + 1, r.2.2)
    else (r.1, r.2.1, r.2.2 + 1)

/-- create_zip_file (src/app.py lines 200-215), abstracted to the archive
layout it produces: one entry per record, at the in-archive path built
from the record's domain, experience and original name. -/
def create_zip_file (categorized_files : List Rec) : List String :=
  categorized_files.map
    (fun c => c.domain ++ "/" ++ c.experience ++ "/" ++ c.original_name)

/-- The archive path the spec prescribes for a record:
domain/experience/original_filename. -/
def specEntryPath (r : Rec) : String :=
  r.domain ++ "/" ++ r.experience ++ "/" ++ r.original_name

/-- The spec's tier assignment from the maximum valid year count m. -/
def specTier (m : Nat) : String :=
  if m = 0 then "Fresher_0-1_years"
  else if 1 ≤ m ∧ m ≤ 3 then "Junior_1-3_years"
  else if 4 ≤ m ∧ m ≤ 6 then "Mid_Level_3-6_years"
  else "Senior_6plus_years"

/-! ### Post-batch control flow: archive creation and download -/

/-- The session fields upload_files writes after the loop. -/
structure SessionSt where
  zip_path : Option String
  processed_count : Option Nat
  failed_count : Option Nat
deriving DecidableEq

/-- A handler response: a flash message plus redirect home, the results
redirect, or a file download. -/
inductive Resp where
  | redirectHome (msg : String)
  | redirectResults
  | sendFile (path : String)
deriving DecidableEq

/-- The archive path create_zip_file writes (src/app.py line 202). -/
def zipPathFor (session_id : String) : String :=
  PROCESSED_FOLDER ++ "/categorized_resumes_" ++ session_id ++ ".zip"

/-- The tail of upload_files (src/app.py lines 276-295): abort when no file
was processed; otherwise attempt archive creation -- zipOk models whether
the filesystem write inside create_zip_file succeeds -- and only on
success store the zip path and the counts in the session and redirect to
the results page. -/
def finishUpload (sess : SessionSt) (session_id : String)
    (categorized_files : List Rec) (processed_count failed_count : Nat)
    (zipOk : Bool) : SessionSt × Resp :=
  if categorized_files.isEmpty then
    (sess, Resp.redirectHome "No valid files were processed")
  else if zipOk then
    ({ sess with
        zip_path := some (zipPathFor session_id)
        processed_count := some processed_count
        failed_count := some failed_count },
     Resp.redirectResults)
  else
    (sess, Resp.redirectHome "Error creating download file")

/-- The download_zip route (src/app.py lines 310-325); fileExists models
os.path.exists on the stored path. -/
def download_zip (sess : SessionSt) (fileExists : String → Bool) : Resp :=
  match sess.zip_path with
  | none => Resp.redirectHome "No download available"
  | some p =>
    if fileExists p then Resp.sendFile p
    else Resp.redirectHome "Download file not found"

/-- The end-to-end example batch of the spec: one .txt file whose extracted
text names a senior software engineer. -/
def demoBatch : List UpFile :=
  [{ filename := "resume.txt"
     extracted := "Senior Python developer, 8 years experience with Django and React"
     raises := false }]

/-! ### Lemmas about the first-maximum fold (Python max with key) -/

theorem pyMaxBy_cons (p q : String × Nat) (l : List (String × Nat)) :
    pyMaxBy p (q :: l) = pyMaxBy (if p.2 < q.2 then q else p) l := rfl

theorem pyMaxBy_of_le (p : String × Nat) (l : List (String × Nat))
    (h : ∀ q ∈ l, q.2 ≤ p.2) : pyMaxBy p l = p := by
  induction l with
  | nil => rfl
  | cons q l ih =>
    have hq : q.2 ≤ p.2 := h q (List.mem_cons_self q l)
    rw [pyMaxBy_cons, if_neg (Nat.not_lt.mpr hq)]
    exact ih (fun r hr => h r (List.mem_cons_of_mem q hr))

theorem pyMaxBy_first (A : List (String × Nat)) :
    ∀ (a : String × Nat) (d : String) (s : Nat) (B : List (String × Nat)),
      a.2 < s → (∀ q ∈ A, q.2 < s) → (∀ q ∈ B, q.2 ≤ s) →
      pyMaxBy a (A ++ (d, s) :: B) = (d, s) := by
  induction A with
  | nil =>
    intro a d s B ha _ hB
    rw [List.nil_append, pyMaxBy_cons, if_pos ha]
    exact pyMaxBy_of_le _ _ hB
  | cons a' A ih =>
    intro a d s B ha hA hB
    rw [List.cons_append, pyMaxBy_cons]
    have ha' : a'.2 < s := hA a' (List.mem_cons_self _ _)
    have hnew : (if a.2 < a'.2 then a' else a).2 < s := by
      split_ifs
      · exact ha'
      · exact ha
    exact ih _ d s B hnew (fun q hq => hA q (List.mem_cons_of_mem _ hq)) hB

theorem pyMaxBy_mem (l : List (String × Nat)) :
    ∀ p : String × Nat, pyMaxBy p l ∈ p :: l := by
  induction l with
  | nil => intro p; exact List.mem_cons_self p []
  | cons q l ih =>
    intro p
    rw [pyMaxBy_cons]
    rcases List.mem_cons.mp (ih (if p.2 < q.2 then q else p)) with h1 | h2
    · rw [h1]
      split_ifs
      · exact List.mem_cons_of_mem _ (List.mem_cons_self _ _)
      · exact List.mem_cons_self _ _
    · exact List.mem_cons_of_mem _ (List.mem_cons_of_mem _ h2)

/-! ### Lemmas about the domain scorer -/

theorem domainScores_fst (t : String) :
    (domainScores t).map Prod.fst =
      ["Software_Engineering", "Data_Science", "VLSI_Electronics",
       "DevOps_Cloud", "Mechanical_Engineering", "Civil_Engineering"] := rfl

theorem domainScores_nodup (t : String) : (domainScores t).Nodup := by
  have h : ((domainScores t).map Prod.fst).Nodup := by
    rw [domainScores_fst]; decide
  exact h.of_map

/-- The tie-break engine: whenever the score list splits as earlier
domains with strictly smaller scores, a positively scored domain d, and
later domains with no larger score, categorize_domain returns d. -/
theorem categorize_domain_of_split (t : String) (l1 l2 : List (String × Nat))
    (d : String) (s : Nat)
    (hsplit : domainScores t = l1 ++ (d, s) :: l2) (hs : 0 < s)
    (h1 : ∀ p ∈ l1, p.2 < s) (h2 : ∀ p ∈ l2, p.2 ≤ s) :
    categorize_domain t = d := by
  have hfilter : (domainScores t).filter (fun p => 0 < p.2)
      = l1.filter (fun p => 0 < p.2) ++ (d, s) :: l2.filter (fun p => 0 < p.2) := by
    rw [hsplit, List.filter_append, List.filter_cons]
    simp [hs]
  rcases hA : l1.filter (fun p => 0 < p.2) with _ | ⟨a, A⟩
  · rw [hA, List.nil_append] at hfilter
    unfold categorize_domain
    rw [hfilter]
    show (pyMaxBy (d, s) (l2.filter (fun p => 0 < p.2))).1 = d
    rw [pyMaxBy_of_le (d, s) _ (fun q hq => h2 q (List.mem_filter.mp hq).1)]
  · rw [hA, List.cons_append] at hfilter
    unfold categorize_domain
    rw [hfilter]
    show (pyMaxBy a (A ++ (d, s) :: l2.filter (fun p => 0 < p.2))).1 = d
    have hmem1 : ∀ q ∈ a :: A, q.2 < s := by
      intro q hq
      have : q ∈ l1.filter (fun p => 0 < p.2) := by rw [hA]; exact hq
      exact h1 q (List.mem_filter.mp this).1
    rw [pyMaxBy_first A a d s _ (hmem1 a (List.mem_cons_self _ _))
      (fun q hq => hmem1 q (List.mem_cons_of_mem _ hq))
      (fun q hq => h2 q (List.mem_filter.mp hq).1)]

/-- When the positive-score filter is nonempty, the returned domain is one
of the keyword-table domain names. -/
theorem categorize_domain_mem_names (t : String) (p : String × Nat)
    (rest : List (String × Nat))
    (h : (domainScores t).filter (fun q => 0 < q.2) = p :: rest) :
    categorize_domain t ∈ domain_keywords.map Prod.fst := by
  unfold categorize_domain
  rw [h]
  show (pyMaxBy p rest).1 ∈ domain_keywords.map Prod.fst
  have hm : pyMaxBy p rest ∈ p :: rest := pyMaxBy_mem rest p
  rw [← h] at hm
  have hm2 : pyMaxBy p rest ∈ domainScores t := (List.mem_filter.mp hm).1
  have hm3 : (pyMaxBy p rest).1 ∈ (domainScores t).map Prod.fst :=
    List.mem_map_of_mem _ hm2
  rw [domainScores_fst] at hm3
  exact hm3

/-! ### Lemmas about the experience scorer -/

theorem clampFoldEq (l : List Nat) :
    ∀ a : Nat,
      l.foldl (fun a n => if n ≤ 50 then max a n else a) a
        = (l.filter (fun n => n ≤ 50)).foldl max a := by
  induction l with
  | nil => intro a; rfl
  | cons n l ih =>
    intro a
    by_cases h : n ≤ 50
    · simp only [List.foldl_cons, List.filter_cons, if_pos h, decide_eq_true h,
        if_true]
      rw [ih]
    · simp only [List.foldl_cons, List.filter_cons, if_neg h,
        decide_eq_false h, Bool.false_eq_true, if_false]
      rw [ih]

theorem patsFoldEq (cs : List Char) :
    ∀ (ps : List (List Char → Option (Nat × List Char))) (A : List Nat),
      ps.foldl
          (fun mx m =>
            (pyFindAll m cs).foldl (fun a n => if n ≤ 50 then max a n else a) mx)
          ((A.filter (fun n => n ≤ 50)).foldl max 0)
        = ((ps.foldl (fun acc m => acc ++ pyFindAll m cs) A).filter
            (fun n => n ≤ 50)).foldl max 0 := by
  intro ps
  induction ps with
  | nil => intro A; rfl
  | cons m ps ih =>
    intro A
    simp only [List.foldl_cons]
    rw [clampFoldEq, ← List.foldl_append, ← List.filter_append]
    exact ih (A ++ pyFindAll m cs)

/-- The valid-year maximum is the maximum over the in-range matches only:
out-of-range matches are discarded. -/
theorem maxValidYears_eq_filter (t : String) :
    maxValidYears t
      = ((allMatches t).filter (fun n => n ≤ 50)).foldl max 0 := by
  have h := patsFoldEq (lowerStr t.toList) experience_patterns []
  simpa only [List.filter_nil, List.foldl_nil] using h

/-- The tier dispatch of the source equals the spec's tier table. -/
theorem experience_eq_specTier (t : String) :
    categorize_experience t = specTier (maxValidYears t) := by
  unfold categorize_experience specTier
  split_ifs <;> first | rfl | omega

/-! ### Claims -/

/-- Claim C1: when the domain scores split into earlier-declared domains of
strictly smaller score, a domain d of positive score s, and later-declared
domains scoring at most s, categorize_domain returns d: among tied maxima
the first-declared domain wins, deterministically. -/
theorem c1_tie_break (t : String) (l1 l2 : List (String × Nat)) (d : String)
    (s : Nat) (hsplit : domainScores t = l1 ++ (d, s) :: l2) (hs : 0 < s)
    (hbefore : ∀ p ∈ l1, p.2 < s) (hafter : ∀ p ∈ l2, p.2 ≤ s) :
    categorize_domain t = d :=
  categorize_domain_of_split t l1 l2 d s hsplit hs hbefore hafter

/-- Witness for C1: in "vlsi devops" the domains VLSI_Electronics and
DevOps_Cloud tie with the maximum score 1, and the first-declared of the
two, VLSI_Electronics, wins. -/
theorem c1_tie_break_witness :
    domainScores "vlsi devops"
        = [("Software_Engineering", 0), ("Data_Science", 0)]
            ++ ("VLSI_Electronics", 1)
              :: [("DevOps_Cloud", 1), ("Mechanical_Engineering", 0),
                  ("Civil_Engineering", 0)]
      ∧ categorize_domain "vlsi devops" = "VLSI_Electronics" :=
  ⟨by decide,
   c1_tie_break "vlsi devops"
     [("Software_Engineering", 0), ("Data_Science", 0)]
     [("DevOps_Cloud", 1), ("Mechanical_Engineering", 0),
      ("Civil_Engineering", 0)]
     "VLSI_Electronics" 1 (by decide) (by decide) (by decide) (by decide)⟩

/-- Counterexample for C2 as stated: the text "7+ years" matches none of
the six experience patterns (each needs a following experience, exp, in,
working or a yr spelling), so the code returns the Fresher tier, not the
Senior tier the claim's example demands. -/
theorem c2_counterexample :
    categorize_experience "7+ years" = "Fresher_0-1_years"
      ∧ categorize_experience "7+ years" ≠ "Senior_6plus_years" := by
  constructor
  · decide
  · decide

/-- Claim C2 (amended): categorize_experience always returns one of the
four fixed tier labels, as the spec's tier table applied to the maximum
valid matched year count; "3 years experience" maps to Junior,
"6 years of experience" maps to Mid-level, and "7+ yrs" maps to Senior. -/
theorem c2_experience_tiers : ∀ t : String,
    categorize_experience t = specTier (maxValidYears t)
      ∧ (categorize_experience t = "Fresher_0-1_years"
          ∨ categorize_experience t = "Junior_1-3_years"
          ∨ categorize_experience t = "Mid_Level_3-6_years"
          ∨ categorize_experience t = "Senior_6plus_years")
      ∧ categorize_experience "3 years experience" = "Junior_1-3_years"
      ∧ categorize_experience "6 years of experience" = "Mid_Level_3-6_years"
      ∧ categorize_experience "7+ yrs" = "Senior_6plus_years" := by
  intro t
  refine ⟨experience_eq_specTier t, ?_, by decide, by decide, by decide⟩
  unfold categorize_experience
  split_ifs <;> simp

/-- Claim C3: matched integers outside [0, 50] are discarded: the tier is
the spec tier of the maximum over the in-range matches only; the matched
75 in "75 years experience" is discarded (Fresher results), and with a
second valid match of 5 the tier falls back to Mid-level. -/
theorem c3_range_filter : ∀ t : String,
    maxValidYears t = ((allMatches t).filter (fun n => n ≤ 50)).foldl max 0
      ∧ categorize_experience t
          = specTier (((allMatches t).filter (fun n => n ≤ 50)).foldl max 0)
      ∧ allMatches "75 years experience" = [75]
      ∧ categorize_experience "75 years experience" = "Fresher_0-1_years"
      ∧ categorize_experience "75 years experience and 5 years in testing"
          = "Mid_Level_3-6_years" := by
  intro t
  refine ⟨maxValidYears_eq_filter t, ?_, by decide, by decide, by decide⟩
  rw [← maxValidYears_eq_filter t]
  exact experience_eq_specTier t

/-- Claim C4: categorize_domain is total, returns a keyword-table domain
name or the sentinel "Other", and returns "Other" exactly when every
domain scores 0 on the text. -/
theorem c4_domain_total : ∀ t : String,
    (categorize_domain t = "Other"
        ∨ categorize_domain t ∈ domain_keywords.map Prod.fst)
      ∧ (categorize_domain t = "Other" ↔ ∀ p ∈ domainScores t, p.2 = 0) := by
  intro t
  have hnames : ∀ x ∈ domain_keywords.map Prod.fst, x ≠ "Other" := by decide
  rcases hf : (domainScores t).filter (fun q => 0 < q.2) with _ | ⟨p, rest⟩
  · have hother : categorize_domain t = "Other" := by
      unfold categorize_domain; rw [hf]
    refine ⟨Or.inl hother, ?_, fun _ => hother⟩
    intro _ q hq
    by_contra hne
    have hmem : q ∈ (domainScores t).filter (fun q => 0 < q.2) :=
      List.mem_filter.mpr ⟨hq, by simpa using Nat.pos_of_ne_zero hne⟩
    rw [hf] at hmem
    exact absurd hmem (List.not_mem_nil q)
  · have hmem := categorize_domain_mem_names t p rest hf
    have hnot : categorize_domain t ≠ "Other" := hnames _ hmem
    refine ⟨Or.inr hmem, ?_, ?_⟩
    · intro hOther; exact absurd hOther hnot
    · intro hz
      have hp : p ∈ (domainScores t).filter (fun q => 0 < q.2) := by
        rw [hf]; exact List.mem_cons_self _ _
      have h1 := List.mem_filter.mp hp
      have h2 : p.2 = 0 := hz p h1.1
      have h3 : 0 < p.2 := by simpa using h1.2
      omega

/-- Witness for C4: the empty text scores 0 everywhere, hence "Other". -/
theorem c4_domain_total_witness :
    categorize_domain "" = "Other" :=
  (c4_domain_total "").2.mpr (by decide)

/-- Claim C5: a text whose score is 1 for one domain and 0 for all others
classifies as that domain; the empty text classifies as
(Other, Fresher). -/
theorem c5_single_domain :
    (∀ (t : String) (p : String × Nat), p ∈ domainScores t → p.2 = 1 →
        (∀ q ∈ domainScores t, q ≠ p → q.2 = 0) →
        categorize_domain t = p.1)
      ∧ categorize_domain "" = "Other"
      ∧ categorize_experience "" = "Fresher_0-1_years" := by
  refine ⟨?_, by decide, by decide⟩
  intro t p hp h1 hz
  obtain ⟨l1, l2, hsplit⟩ := List.append_of_mem hp
  have hnd : (domainScores t).Nodup := domainScores_nodup t
  rw [hsplit] at hnd
  rcases List.nodup_append.mp hnd with ⟨-, hnd2, hdisj⟩
  have hpl2 : p ∉ l2 := (List.nodup_cons.mp hnd2).1
  have hpl1 : p ∉ l1 := fun h => (hdisj h) (List.mem_cons_self _ _)
  apply categorize_domain_of_split t l1 l2 p.1 p.2
  · exact hsplit
  · omega
  · intro q hq
    have hqs : q ∈ domainScores t := by
      rw [hsplit]; exact List.mem_append_left _ hq
    have hqp : q ≠ p := fun he => hpl1 (he ▸ hq)
    have := hz q hqs hqp
    omega
  · intro q hq
    have hqs : q ∈ domainScores t := by
      rw [hsplit]
      exact List.mem_append_right _ (List.mem_cons_of_mem _ hq)
    have hqp : q ≠ p := fun he => hpl2 (he ▸ hq)
    have := hz q hqs hqp
    omega

/-- Witness for C5: "vlsi" contains exactly one keyword instance, from
VLSI_Electronics, and no keyword of any other domain. -/
theorem c5_single_domain_witness :
    categorize_domain "vlsi" = "VLSI_Electronics" :=
  c5_single_domain.1 "vlsi" ("VLSI_Electronics", 1) (by decide) rfl (by decide)

/-- Claim C6: the archive holds exactly one entry per processed record, at
domain/experience/original_filename; the end-to-end batch of one .txt file
describing a senior Python developer with 8 years of experience yields
exactly the entry Software_Engineering/Senior_6plus_years/resume.txt. -/
theorem c6_archive_layout :
    (∀ rs : List Rec, create_zip_file rs = rs.map specEntryPath)
      ∧ (∀ rs : List Rec, (create_zip_file rs).length = rs.length)
      ∧ (processBatch "s1" demoBatch).2.1 = 1
      ∧ (processBatch "s1" demoBatch).2.2 = 0
      ∧ create_zip_file (processBatch "s1" demoBatch).1
          = ["Software_Engineering/Senior_6plus_years/resume.txt"] := by
  refine ⟨fun rs => rfl, fun rs => ?_, by decide, by decide, by decide⟩
  simp [create_zip_file]

/-- Claim C7: a file whose extension is not allow-listed contributes no
record (hence no archive entry), bumps the failed count by exactly one,
and leaves the processing of the other files of the batch unchanged. -/
theorem c7_disallowed_extension (sid : String) (pre post : List UpFile)
    (f : UpFile) (hf : allowed_file f.filename = false) :
    processBatch sid (pre ++ f :: post)
        = ((processBatch sid (pre ++ post)).1,
           (processBatch sid (pre ++ post)).2.1,
           (processBatch sid (pre ++ post)).2.2 + 1)
      ∧ create_zip_file (processBatch sid (pre ++ f :: post)).1
          = create_zip_file (processBatch sid (pre ++ post)).1 := by
  have key : processBatch sid (pre ++ f :: post)
      = ((processBatch sid (pre ++ post)).1,
         (processBatch sid (pre ++ post)).2.1,
         (processBatch sid (pre ++ post)).2.2 + 1) := by
    induction pre with
    | nil =>
      simp only [List.nil_append, processBatch]
      rw [if_neg]
      intro hcontra
      rw [hf] at hcontra
      exact absurd hcontra.2 (by simp)
    | cons a pre ih =>
      simp only [List.cons_append, processBatch, List.append_eq]
      rw [ih]
      split_ifs <;> rfl
  exact ⟨key, by rw [key]⟩

/-- Witness for C7: a batch of a .exe file and a .txt file processes the
.txt file and counts the .exe file as the single failure. -/
theorem c7_disallowed_extension_witness :
    allowed_file "malware.exe" = false
      ∧ processBatch "s1"
          [{ filename := "malware.exe", extracted := "python", raises := false },
           { filename := "resume.txt", extracted := "vlsi", raises := false }]
        = ((processBatch "s1"
              [{ filename := "resume.txt", extracted := "vlsi", raises := false }]).1,
           (processBatch "s1"
              [{ filename := "resume.txt", extracted := "vlsi", raises := false }]).2.1,
           (processBatch "s1"
              [{ filename := "resume.txt", extracted := "vlsi", raises := false }]).2.2 + 1) :=
  ⟨by decide,
   (c7_disallowed_extension "s1" []
      [{ filename := "resume.txt", extracted := "vlsi", raises := false }]
      { filename := "malware.exe", extracted := "python", raises := false }
      (by decide)).1⟩

/-- Claim C8: when extraction yields only whitespace (in particular the
empty text of a failed extraction), the file still processes: the filename
becomes the scored text and both scorers run on it. -/
theorem c8_extraction_fallback (sid : String) (f : UpFile)
    (hsp : f.extracted.toList.all pyIsSpace = true) (hn : f.filename ≠ "")
    (ha : allowed_file f.filename = true) (hr : f.raises = false) :
    (processOne sid f).domain = categorize_domain f.filename
      ∧ (processOne sid f).experience = categorize_experience f.filename
      ∧ processBatch sid [f] = ([processOne sid f], 1, 0) := by
  have heff : effectiveText f.filename f.extracted = f.filename := by
    unfold effectiveText
    rw [hsp]
    rfl
  refine ⟨?_, ?_, ?_⟩
  · show categorize_domain (effectiveText f.filename f.extracted)
        = categorize_domain f.filename
    rw [heff]
  · show categorize_experience (effectiveText f.filename f.extracted)
        = categorize_experience f.filename
    rw [heff]
  · simp only [processBatch]
    rw [if_pos ⟨hn, ha⟩, if_neg (by rw [hr]; simp)]

/-- Witness for C8: a whitespace-only extraction of python_developer.txt is
scored through the filename, which the domain scorer classifies. -/
theorem c8_extraction_fallback_witness :
    (processOne "s1"
        { filename := "python_developer.txt", extracted := "   ", raises := false }).domain
        = categorize_domain "python_developer.txt"
      ∧ (processOne "s1"
          { filename := "python_developer.txt", extracted := "   ", raises := false }).experience
          = categorize_experience "python_developer.txt"
      ∧ processBatch "s1"
          [{ filename := "python_developer.txt", extracted := "   ", raises := false }]
          = ([processOne "s1"
               { filename := "python_developer.txt", extracted := "   ", raises := false }],
             1, 0) :=
  c8_extraction_fallback "s1"
    { filename := "python_developer.txt", extracted := "   ", raises := false }
    (by decide) (by decide) (by decide) rfl

/-- Claim C9: when archive creation fails on a nonempty batch, the handler
answers with the user-facing error flash and a redirect home, the session
download state is not set, and a subsequent download request is redirected
home instead of served a file. -/
theorem c9_zip_failure (sess : SessionSt) (sid : String) (rs : List Rec)
    (pc fc : Nat) (fileExists : String → Bool) (hne : rs ≠ [])
    (hzp : sess.zip_path = none) :
    (finishUpload sess sid rs pc fc false).1.zip_path = none
      ∧ (finishUpload sess sid rs pc fc false).2
          = Resp.redirectHome "Error creating download file"
      ∧ download_zip (finishUpload sess sid rs pc fc false).1 fileExists
          = Resp.redirectHome "No download available" := by
  have hempty : rs.isEmpty = false := by
    cases rs with
    | nil => exact absurd rfl hne
    | cons a l => rfl
  have hfin : finishUpload sess sid rs pc fc false
      = (sess, Resp.redirectHome "Error creating download file") := by
    unfold finishUpload
    rw [hempty]
    simp
  rw [hfin]
  refine ⟨hzp, rfl, ?_⟩
  unfold download_zip
  rw [hzp]

/-- Witness for C9: a fresh session, one processed record, and a failing
zip write leave no download available. -/
theorem c9_zip_failure_witness :
    (finishUpload ⟨none, none, none⟩ "s1"
        [⟨"resume.txt", "/tmp/uploads/s1_resume.txt", "Other",
          "Fresher_0-1_years", "x"⟩] 1 0 false).1.zip_path = none
      ∧ (finishUpload ⟨none, none, none⟩ "s1"
          [⟨"resume.txt", "/tmp/uploads/s1_resume.txt", "Other",
            "Fresher_0-1_years", "x"⟩] 1 0 false).2
          = Resp.redirectHome "Error creating download file"
      ∧ download_zip
          (finishUpload ⟨none, none, none⟩ "s1"
            [⟨"resume.txt", "/tmp/uploads/s1_resume.txt", "Other",
              "Fresher_0-1_years", "x"⟩] 1 0 false).1
          (fun _ => true)
          = Resp.redirectHome "No download available" :=
  c9_zip_failure ⟨none, none, none⟩ "s1"
    [⟨"resume.txt", "/tmp/uploads/s1_resume.txt", "Other",
      "Fresher_0-1_years", "x"⟩] 1 0 (fun _ => true) (by decide) rfl

/-- Claim C10: every submitted file is counted exactly once, so
processed_count + failed_count equals the batch size, and the number of
records (hence archive entries) equals processed_count. -/
theorem c10_counts : ∀ (sid : String) (files : List UpFile),
    (processBatch sid files).2.1 + (processBatch sid files).2.2 = files.length
      ∧ (processBatch sid files).1.length = (processBatch sid files).2.1 := by
  intro sid files
  induction files with
  | nil => exact ⟨rfl, rfl⟩
  | cons f fs ih =>
    obtain ⟨ih1, ih2⟩ := ih
    simp only [processBatch, List.length_cons]
    split_ifs with h1 h2 <;> exact ⟨by simp; omega, by simp; omega⟩

end ResumeApp
